import Mathlib

/-!
Shallow embedding of the jQuery Simple Timer plugin
(src/src/jquery.simpletimer.js, v0.1.9, and the earlier revision v0.1.6
kept as src/unnamed/part_000).

Modelling choices, per element (the plugin keeps one settings object per
DOM element; all claims are per instance, so we model one element):

* JS numbers are embedded as rationals.  JS `Math.round x` is
  `Int.floor (x + 1/2)` (round half toward positive infinity), which is
  what `Math.round` computes on finite doubles.
* The `settings.timeout` field holds either `false` or a truthy timeout
  handle; only its truthiness is ever tested (`settings.timeout !== false`),
  and `clearTimeout` cancels the live callback the handle refers to.  We
  embed the field as a `Bool` (`false` = JS false, `true` = a handle) and
  track the number of live scheduled callbacks in a separate `pending`
  field of the timer state.  `setTimeout` adds one live callback;
  `clearTimeout settings.timeout` removes the live callback the stored
  handle points at: the stored handle is always the most recently
  scheduled one and at most one callback is ever live, so a stale handle
  occurs only when no callback is live, and truncated subtraction
  `pending - 1` is an exact model of `clearTimeout`.
* Callbacks are configuration slots holding `false` or a function; we
  embed each slot as a `Bool` (present or not) and record the invocations
  the code performs in an event trace.
* The boolean / undefined values the filter functions return are embedded
  as `Option Bool` (`none` = JS undefined).
-/

namespace SimpleTimer

/-- Callback invocations observable from a run of the plugin code. -/
inductive Event where
  | evStart
  | evIncrement
  | evComplete
  | evStop
  | evReset
deriving DecidableEq, Repr

/-- Return value of a JS function: `some b` a boolean, `none` undefined. -/
abbrev JSRet := Option Bool

/-- The per-element settings object stored under the key
SimpleTimer.settings: the public options of `_private.settings` plus the
private fields `timeout` and `count` added by `methods.init`. -/
structure Settings where
  increment : ℚ
  duration : ℚ
  autostart : Bool
  onComplete : Bool
  onIncrement : Bool
  onStart : Bool
  onStop : Bool
  onReset : Bool
  timeout : Bool
  count : ℚ
deriving DecidableEq, Repr

/-- A caller-supplied options object: any subset of the keys may be
present, including the private keys `count` and `timeout` (a JS caller can
put any key in the object literal). -/
structure Options where
  increment : Option ℚ := none
  duration : Option ℚ := none
  autostart : Option Bool := none
  onComplete : Option Bool := none
  onIncrement : Option Bool := none
  onStart : Option Bool := none
  onStop : Option Bool := none
  onReset : Option Bool := none
  count : Option ℚ := none
  timeout : Option Bool := none
deriving DecidableEq, Repr

/-- The full state of one timer instance: its settings object plus the
number of live scheduled timeout callbacks (see the header comment). -/
structure TimerState where
  settings : Settings
  pending : ℕ
deriving DecidableEq, Repr

/-- JS `Math.round` on finite numbers: half rounds toward positive
infinity. -/
def jsRound (q : ℚ) : ℤ := ⌊q + 1/2⌋

/-- The default settings object `_private.settings` of v0.1.9 (the
`timeout` and `count` fields are not in the source object; they are merged
in by `methods.init` and carried here with their initial values, which is
observationally the same since every settings object the code reads went
through `methods.init`). -/
def _private.settings : Settings :=
  { increment := 100
    duration := 1000
    autostart := false
    onComplete := false
    onIncrement := false
    onStart := false
    onStop := false
    onReset := false
    timeout := false
    count := 0 }

/-- jQuery `$.extend true s o`: every key present in `o` overwrites the
corresponding key of `s` (all values here are scalars, so deep and shallow
extend agree). -/
def extendOpt (s : Settings) (o : Options) : Settings :=
  { increment := o.increment.getD s.increment
    duration := o.duration.getD s.duration
    autostart := o.autostart.getD s.autostart
    onComplete := o.onComplete.getD s.onComplete
    onIncrement := o.onIncrement.getD s.onIncrement
    onStart := o.onStart.getD s.onStart
    onStop := o.onStop.getD s.onStop
    onReset := o.onReset.getD s.onReset
    timeout := o.timeout.getD s.timeout
    count := o.count.getD s.count }

/-- The merge performed by `methods.init`:
`$.extend true (emptyObj) _private.settings options (timeoutFalseCountZero)`.
The object holding `timeout := false` and `count := 0` is merged last, so
those two fields overwrite whatever the options supplied. -/
def initSettings (o : Options) : Settings :=
  { extendOpt _private.settings o with timeout := false, count := 0 }

/-- Embeds `_private.time` of v0.1.9 (identical to `_time` of v0.1.6):
when `settings.timeout !== false`, `setTimeout` schedules one callback
running `_private.count` after `settings.increment`, and the new handle is
stored in `settings.timeout` (still truthy, so the `Bool` field keeps the
value `true`). -/
def _private.time (st : TimerState) : TimerState :=
  if st.settings.timeout then { st with pending := st.pending + 1 } else st

/-- Embeds `methods.start` (identical in both revisions): sets
`settings.timeout` to `true`, fires `onStart` when set, then calls
`_private.time`. -/
def methods.start (st : TimerState) : TimerState × List Event :=
  let st1 : TimerState := { st with settings := { st.settings with timeout := true } }
  let tr := if st1.settings.onStart then [Event.evStart] else []
  (_private.time st1, tr)

/-- Embeds `methods.stop` (identical in both revisions):
`clearTimeout settings.timeout` (removes the live callback the stored
handle refers to, if any), sets `settings.timeout` to `false`, fires
`onStop` when set. -/
def methods.stop (st : TimerState) : TimerState × List Event :=
  let st1 : TimerState :=
    { settings := { st.settings with timeout := false }, pending := st.pending - 1 }
  (st1, if st.settings.onStop then [Event.evStop] else [])

/-- Embeds `filters.stop` (identical in both revisions): elements whose
`settings.timeout` is `false` are filtered out; if none pass it returns
`false`, otherwise it calls `methods.stop` and returns `true`. -/
def filters.stop (st : TimerState) : TimerState × List Event × JSRet :=
  if st.settings.timeout = false then (st, [], some false)
  else
    let (st1, tr) := methods.stop st
    (st1, tr, some true)

/-- Embeds `_private.complete` of v0.1.9: first `filters.stop` (stop the
timer), then fire `onComplete` when set. -/
def _private.complete (st : TimerState) : TimerState × List Event :=
  let (st1, tr1, _) := filters.stop st
  (st1, tr1 ++ (if st1.settings.onComplete then [Event.evComplete] else []))

/-- Embeds `_private.count` of v0.1.9, the body of the timeout callback:
adds `settings.increment` to `settings.count`, fires `onIncrement` when
set, then either calls `_private.complete` (when
`settings.count >= settings.duration`) or `_private.time` to reschedule.
The input state is the one seen after the scheduled callback has fired. -/
def _private.count (st : TimerState) : TimerState × List Event :=
  let s1 : Settings := { st.settings with count := st.settings.count + st.settings.increment }
  let st1 : TimerState := { st with settings := s1 }
  let trInc := if s1.onIncrement then [Event.evIncrement] else []
  if s1.duration ≤ s1.count then
    let (st2, tr2) := _private.complete st1
    (st2, trInc ++ tr2)
  else
    (_private.time st1, trInc)

/-- A scheduled timeout callback fires: the callback leaves the live set
(`pending - 1`) and its body `_private.count` runs (v0.1.9). -/
def tick (st : TimerState) : TimerState × List Event :=
  _private.count { st with pending := st.pending - 1 }

/-- Embeds `_count` of v0.1.6, whose completion branch differs from
v0.1.9: it fires `onComplete` first and only then calls `methods.stop`
(directly, not through the filter). -/
def tick_v016 (st : TimerState) : TimerState × List Event :=
  let st0 : TimerState := { st with pending := st.pending - 1 }
  let s1 : Settings := { st0.settings with count := st0.settings.count + st0.settings.increment }
  let st1 : TimerState := { st0 with settings := s1 }
  let trInc := if s1.onIncrement then [Event.evIncrement] else []
  if s1.duration ≤ s1.count then
    let trC := if s1.onComplete then [Event.evComplete] else []
    let (st2, tr2) := methods.stop st1
    (st2, trInc ++ trC ++ tr2)
  else
    (_private.time st1, trInc)

/-- Embeds `filters.start` of v0.1.9.  Per element: when
`settings.duration <= 0` it first calls `_private.complete`; then the
element is filtered out when `settings.timeout !== false` (already
started) or `settings.count >= settings.duration` (already ran its
duration) -- both checks read the settings object as mutated by the
complete call.  When no element passes it returns `false`; otherwise it
calls `methods.start` and falls off the end, returning undefined
(`none`). -/
def filters.start (st : TimerState) : TimerState × List Event × JSRet :=
  let (st1, tr1) :=
    if st.settings.duration ≤ 0 then _private.complete st else (st, [])
  if st1.settings.timeout = false ∧ st1.settings.count < st1.settings.duration then
    let (st2, tr2) := methods.start st1
    (st2, tr1 ++ tr2, none)
  else
    (st1, tr1, some false)

/-- Embeds `filters.start` of v0.1.6: no special branch for
non-positive durations, and it returns `true` when an element passed the
filter. -/
def filters.start_v016 (st : TimerState) : TimerState × List Event × JSRet :=
  if st.settings.timeout = false ∧ st.settings.count < st.settings.duration then
    let (st2, tr2) := methods.start st
    (st2, tr2, some true)
  else
    (st, [], some false)

/-- Embeds `methods.reset` (identical in both revisions up to the filter
used for the inner stop; v0.1.9 calls `filters.stop`): stop the timer,
set `settings.count` to `0`, fire `onReset` when set. -/
def methods.reset (st : TimerState) : TimerState × List Event :=
  let (st1, tr1, _) := filters.stop st
  let st2 : TimerState := { st1 with settings := { st1.settings with count := 0 } }
  (st2, tr1 ++ (if st2.settings.onReset then [Event.evReset] else []))

/-- Embeds `methods.update` (identical in both revisions):
`settings = $.extend true settings options`, saved back; the set of live
scheduled callbacks is untouched (no `clearTimeout`, no `setTimeout`). -/
def methods.update (o : Options) (st : TimerState) : TimerState :=
  { st with settings := extendOpt st.settings o }

/-- Embeds `methods.init` (identical in both revisions): builds the merged
settings object, stores it (live callback set starts empty), and when
`settings.autostart` is truthy calls `methods.start` directly. -/
def methods.init (o : Options) : TimerState × List Event :=
  let st : TimerState := { settings := initSettings o, pending := 0 }
  if st.settings.autostart then methods.start st else (st, [])

/-- Result of a getter on one element: `jsFalse` is the sentinel returned
for an element with no settings data (never passed through init). -/
inductive GetPercentResult where
  | jsFalse
  | val (q : ℚ)
deriving DecidableEq, Repr

/-- The rational computed by `get.percent` of v0.1.9 on one element with
settings `s`: `Math.round (s.count / s.duration * 1000) / 1000`. -/
def percentQ (s : Settings) : ℚ := (jsRound (s.count / s.duration * 1000) : ℚ) / 1000

/-- Embeds `get.percent` of v0.1.9 on one selected element: reads the
settings data (performing no writes); with no data it pushes the sentinel
`false`, otherwise the rounded ratio. -/
def get.percent (data : Option Settings) : GetPercentResult :=
  match data with
  | none => GetPercentResult.jsFalse
  | some s => GetPercentResult.val (percentQ s)

/-- The operations of the public surface that can hit one live instance,
plus the internal tick. -/
inductive Op where
  | opStart
  | opStop
  | opReset
  | opTick
  | opUpdate (o : Options)
deriving DecidableEq

/-- One step of the instance: public calls go through their filters, and
a tick happens only when a scheduled callback is live (with none live
there is nothing to fire, so `opTick` does nothing). -/
def stepE (st : TimerState) : Op → TimerState × List Event
  | Op.opStart => ((filters.start st).1, (filters.start st).2.1)
  | Op.opStop => ((filters.stop st).1, (filters.stop st).2.1)
  | Op.opReset => methods.reset st
  | Op.opTick => if st.pending = 0 then (st, []) else tick st
  | Op.opUpdate o => (methods.update o st, [])

/-- Runs a sequence of operations, concatenating the event traces. -/
def runOps : TimerState → List Op → TimerState × List Event
  | st, [] => (st, [])
  | st, op :: ops =>
    let (st1, tr1) := stepE st op
    let (st2, tr2) := runOps st1 ops
    (st2, tr1 ++ tr2)

/-- A sample settings object: defaults with every callback attached. -/
def sampleSettings : Settings :=
  { _private.settings with
      onComplete := true, onIncrement := true, onStart := true, onStop := true,
      onReset := true }

/-- An idle instance fresh out of init, every callback attached. -/
def idleState : TimerState := { settings := sampleSettings, pending := 0 }

/-- A running instance one tick away from its duration: count 950,
increment 100, duration 1000, one scheduled callback live. -/
def runningNearEnd : TimerState :=
  { settings := { sampleSettings with timeout := true, count := 950 }, pending := 1 }

/-- Characterization of a v0.1.9 tick that reaches the duration: the
count grows by the increment, the timer stops (timeout cleared, the live
callback set drops by the one that fired and none is added), and the
events are onIncrement, then onStop, then onComplete, each when set. -/
theorem tick_complete_eq (st : TimerState) (hp : st.pending = 1)
    (ht : st.settings.timeout = true)
    (hd : st.settings.duration ≤ st.settings.count + st.settings.increment) :
    tick st =
      ({ settings := { st.settings with
           timeout := false,
           count := st.settings.count + st.settings.increment },
         pending := 0 },
       (if st.settings.onIncrement then [Event.evIncrement] else []) ++
         ((if st.settings.onStop then [Event.evStop] else []) ++
           (if st.settings.onComplete then [Event.evComplete] else []))) := by
  simp [tick, _private.count, _private.complete, filters.stop, methods.stop,
    _private.time, hp, ht, hd]

/-- Characterization of a v0.1.9 tick that stays below the duration: the
count grows by the increment, exactly one further callback is scheduled
(the one that fired is replaced), and the only event is onIncrement when
set. -/
theorem tick_continue_eq (st : TimerState) (hp : st.pending = 1)
    (ht : st.settings.timeout = true)
    (hd : st.settings.count + st.settings.increment < st.settings.duration) :
    tick st =
      ({ settings := { st.settings with
           count := st.settings.count + st.settings.increment },
         pending := 1 },
       if st.settings.onIncrement then [Event.evIncrement] else []) := by
  simp [tick, _private.count, _private.complete, filters.stop, methods.stop,
    _private.time, hp, ht, not_le.mpr hd]

/-- Characterization of a v0.1.6 tick that reaches the duration: same
state change, but onComplete fires before the stop (and hence before
onStop). -/
theorem tick_v016_complete_eq (st : TimerState) (hp : st.pending = 1)
    (_ht : st.settings.timeout = true)
    (hd : st.settings.duration ≤ st.settings.count + st.settings.increment) :
    tick_v016 st =
      ({ settings := { st.settings with
           timeout := false,
           count := st.settings.count + st.settings.increment },
         pending := 0 },
       (if st.settings.onIncrement then [Event.evIncrement] else []) ++
         ((if st.settings.onComplete then [Event.evComplete] else []) ++
           (if st.settings.onStop then [Event.evStop] else []))) := by
  simp [tick_v016, methods.stop, _private.time, hp, _ht, hd]

/-- C1, counterexample.  The claim states that on reaching the duration
the tick transitions to Completed by invoking onComplete and then
stopping.  In v0.1.9 (src/src/jquery.simpletimer.js) the code stops
first: at a concrete near-complete running timer the observed event order
is onIncrement, onStop, onComplete, not onIncrement, onComplete, onStop. -/
theorem C1_counterexample :
    (tick runningNearEnd).2 = [Event.evIncrement, Event.evStop, Event.evComplete] ∧
    (tick runningNearEnd).2 ≠ [Event.evIncrement, Event.evComplete, Event.evStop] := by
  have h : (tick runningNearEnd).2 =
      [Event.evIncrement, Event.evStop, Event.evComplete] := by
    norm_num [tick, _private.count, _private.complete, filters.stop, methods.stop,
      _private.time, runningNearEnd, sampleSettings, _private.settings]
  refine ⟨h, ?_⟩
  rw [h]
  decide

/-- C1, amended.  An internal tick adds the increment to the count and
fires onIncrement (when set); if the new count has reached the duration,
the v0.1.9 timer transitions to Completed by stopping first (clearing the
timeout, firing onStop when set) and then invoking onComplete, while the
v0.1.6 timer invokes onComplete and then stops; otherwise exactly one
further tick is rescheduled. -/
theorem C1_tick_amended (st : TimerState) (hp : st.pending = 1)
    (ht : st.settings.timeout = true) :
    ((tick st).1.settings.count = st.settings.count + st.settings.increment) ∧
    (st.settings.onIncrement = true → Event.evIncrement ∈ (tick st).2) ∧
    (st.settings.duration ≤ st.settings.count + st.settings.increment →
      (tick st).1.pending = 0 ∧ (tick st).1.settings.timeout = false ∧
      (tick st).2 =
        (if st.settings.onIncrement then [Event.evIncrement] else []) ++
          ((if st.settings.onStop then [Event.evStop] else []) ++
            (if st.settings.onComplete then [Event.evComplete] else [])) ∧
      (tick_v016 st).2 =
        (if st.settings.onIncrement then [Event.evIncrement] else []) ++
          ((if st.settings.onComplete then [Event.evComplete] else []) ++
            (if st.settings.onStop then [Event.evStop] else []))) ∧
    (st.settings.count + st.settings.increment < st.settings.duration →
      (tick st).1.pending = 1 ∧ (tick st).1.settings.timeout = true ∧
      (tick st).2 = (if st.settings.onIncrement then [Event.evIncrement] else [])) := by
  by_cases hd : st.settings.duration ≤ st.settings.count + st.settings.increment
  · refine ⟨?_, ?_, ?_, ?_⟩
    · rw [tick_complete_eq st hp ht hd]
    · intro hInc
      rw [tick_complete_eq st hp ht hd]
      simp [hInc]
    · intro _
      rw [tick_complete_eq st hp ht hd, tick_v016_complete_eq st hp ht hd]
      exact ⟨rfl, rfl, rfl, rfl⟩
    · intro hlt
      exact absurd hd (not_le.mpr hlt)
  · push_neg at hd
    refine ⟨?_, ?_, ?_, ?_⟩
    · rw [tick_continue_eq st hp ht hd]
    · intro hInc
      rw [tick_continue_eq st hp ht hd]
      simp [hInc]
    · intro hge
      exact absurd hge (not_le.mpr hd)
    · intro _
      rw [tick_continue_eq st hp ht hd]
      exact ⟨rfl, ht, rfl⟩

/-- C1, witness for the amended theorem at the concrete running timer. -/
theorem C1_tick_amended_witness :
    (tick runningNearEnd).1.settings.count =
      runningNearEnd.settings.count + runningNearEnd.settings.increment ∧
    (runningNearEnd.settings.onIncrement = true →
      Event.evIncrement ∈ (tick runningNearEnd).2) ∧
    (runningNearEnd.settings.duration ≤
        runningNearEnd.settings.count + runningNearEnd.settings.increment →
      (tick runningNearEnd).1.pending = 0 ∧
      (tick runningNearEnd).1.settings.timeout = false ∧
      (tick runningNearEnd).2 =
        (if runningNearEnd.settings.onIncrement then [Event.evIncrement] else []) ++
          ((if runningNearEnd.settings.onStop then [Event.evStop] else []) ++
            (if runningNearEnd.settings.onComplete then [Event.evComplete] else [])) ∧
      (tick_v016 runningNearEnd).2 =
        (if runningNearEnd.settings.onIncrement then [Event.evIncrement] else []) ++
          ((if runningNearEnd.settings.onComplete then [Event.evComplete] else []) ++
            (if runningNearEnd.settings.onStop then [Event.evStop] else []))) ∧
    (runningNearEnd.settings.count + runningNearEnd.settings.increment <
        runningNearEnd.settings.duration →
      (tick runningNearEnd).1.pending = 1 ∧
      (tick runningNearEnd).1.settings.timeout = true ∧
      (tick runningNearEnd).2 =
        (if runningNearEnd.settings.onIncrement then [Event.evIncrement] else [])) :=
  C1_tick_amended runningNearEnd rfl rfl

/-- A running instance with non-positive duration, as produced by
init with autostart true and duration 0 (reachable because init calls
methods.start directly, bypassing the start filter). -/
def c2AutoState : TimerState :=
  (methods.init
    { autostart := some true
      duration := some 0
      onStop := some true
      onComplete := some true }).1

/-- C2, counterexample.  The claim states that start on a timer that is
already Running (a scheduled callback pending) leaves the state
unchanged.  On the reachable running timer with duration 0 the start
filter first jumps to complete: it clears the timeout flag, cancels the
live callback and fires onStop and onComplete, so the state changes. -/
theorem C2_counterexample :
    c2AutoState.settings.timeout = true ∧ c2AutoState.pending = 1 ∧
    (filters.start c2AutoState).1.settings.timeout = false ∧
    (filters.start c2AutoState).1.pending = 0 ∧
    (filters.start c2AutoState).2.1 = [Event.evStop, Event.evComplete] := by
  norm_num [c2AutoState, methods.init, initSettings, extendOpt, _private.settings,
    methods.start, _private.time, filters.start, _private.complete, filters.stop,
    methods.stop]

/-- C2, amended.  For a timer whose duration is positive, calling start
while already Running (timeout flag set) or already Completed (count at
or past the duration) is a no-op: state, events and live callbacks are
unchanged and the filter returns false; and two consecutive start calls
from Idle leave exactly one scheduled callback live.  (With duration at
most 0 the start filter instead jumps to complete, which mutates a
running timer; see the counterexample.) -/
theorem C2_start_guard (st : TimerState) (hd : 0 < st.settings.duration) :
    (st.settings.timeout = true ∨ st.settings.duration ≤ st.settings.count →
      filters.start st = (st, [], some false)) ∧
    (st.settings.timeout = false → st.settings.count < st.settings.duration →
      st.pending = 0 →
      (runOps st [Op.opStart, Op.opStart]).1.pending = 1 ∧
      (filters.start (filters.start st).1).1 = (filters.start st).1) := by
  have hnd : ¬st.settings.duration ≤ 0 := not_le.mpr hd
  constructor
  · intro h
    rcases h with h | h
    · simp [filters.start, hnd, h]
    · simp [filters.start, hnd, not_lt.mpr h]
  · intro ht hc hp
    have h1 : filters.start st =
        (({ settings := { st.settings with timeout := true },
            pending := st.pending + 1 }, ([] : List Event) ++
              (if st.settings.onStart then [Event.evStart] else []), none)) := by
      simp [filters.start, hnd, ht, hc, methods.start, _private.time]
    have h2 : (filters.start st).1 =
        { settings := { st.settings with timeout := true },
          pending := st.pending + 1 } := by rw [h1]
    have h3 : filters.start (filters.start st).1 =
        ((filters.start st).1, [], some false) := by
      rw [h2]
      simp [filters.start, hnd]
    refine ⟨?_, by rw [h3]⟩
    have hrun : (runOps st [Op.opStart, Op.opStart]).1 =
        (filters.start (filters.start st).1).1 := rfl
    rw [hrun, h3, h2, hp]

/-- C2, witness for the amended theorem: the guard at a completed timer
and the double start from Idle, at concrete states. -/
theorem C2_start_guard_witness :
    (idleState.settings.timeout = true ∨
        idleState.settings.duration ≤ idleState.settings.count →
      filters.start idleState = (idleState, [], some false)) ∧
    (idleState.settings.timeout = false →
      idleState.settings.count < idleState.settings.duration →
      idleState.pending = 0 →
      (runOps idleState [Op.opStart, Op.opStart]).1.pending = 1 ∧
      (filters.start (filters.start idleState).1).1 = (filters.start idleState).1) :=
  C2_start_guard idleState (by norm_num [idleState, sampleSettings, _private.settings])

/-- C3, confirmed.  Starting any timer whose duration is at most 0 (and
whose count is nonnegative, as every reachable count with nonnegative
increments is) immediately fires onComplete, fires no onIncrement, never
reaches methods.start (no onStart event), schedules no callback, and the
filter reports false. -/
theorem C3_start_completes_nonpositive (st : TimerState)
    (hd : st.settings.duration ≤ 0) (hc : 0 ≤ st.settings.count)
    (hcb : st.settings.onComplete = true) :
    (filters.start st).2.2 = some false ∧
    Event.evComplete ∈ (filters.start st).2.1 ∧
    Event.evIncrement ∉ (filters.start st).2.1 ∧
    Event.evStart ∉ (filters.start st).2.1 ∧
    (filters.start st).1.pending ≤ st.pending ∧
    (filters.start st).1.settings.count = st.settings.count := by
  have hcd : ¬st.settings.count < st.settings.duration :=
    not_lt.mpr (le_trans hd hc)
  by_cases ht : st.settings.timeout = true
  · simp [filters.start, _private.complete, filters.stop, methods.stop, hd, hcd,
      ht, hcb]
  · simp only [Bool.not_eq_true] at ht
    simp [filters.start, _private.complete, filters.stop, methods.stop, hd, hcd,
      ht, hcb]

/-- An idle instance with duration 0 and every callback attached. -/
def c3State : TimerState :=
  { settings := { sampleSettings with duration := 0 }, pending := 0 }

/-- C3, witness: a freshly inited timer with duration 0 and callbacks
attached. -/
theorem C3_start_completes_witness :
    (filters.start c3State).2.2 = some false ∧
    Event.evComplete ∈ (filters.start c3State).2.1 ∧
    Event.evIncrement ∉ (filters.start c3State).2.1 ∧
    Event.evStart ∉ (filters.start c3State).2.1 ∧
    (filters.start c3State).1.pending ≤ c3State.pending ∧
    (filters.start c3State).1.settings.count = c3State.settings.count :=
  C3_start_completes_nonpositive c3State
    (by norm_num [c3State, sampleSettings, _private.settings])
    (by norm_num [c3State, sampleSettings, _private.settings])
    (by norm_num [c3State, sampleSettings, _private.settings])

/-- Helper: from a state with no live scheduled callback, any sequence
of operations not containing start keeps the live set empty and never
produces an onIncrement event (ticks have nothing to fire, and stop,
reset and update never schedule). -/
theorem pending_zero_no_increment (ops : List Op) :
    ∀ st : TimerState, st.pending = 0 → Op.opStart ∉ ops →
      (runOps st ops).1.pending = 0 ∧
      Event.evIncrement ∉ (runOps st ops).2 := by
  induction ops with
  | nil => intro st hp _; simp [runOps, hp]
  | cons op ops ih =>
    intro st hp hops
    have hop : op ≠ Op.opStart := fun h => hops (h ▸ List.mem_cons_self op ops)
    have hops2 : Op.opStart ∉ ops := fun h => hops (List.mem_cons_of_mem op h)
    have hstep : (stepE st op).1.pending = 0 ∧
        Event.evIncrement ∉ (stepE st op).2 := by
      cases op with
      | opStart => exact absurd rfl hop
      | opStop =>
        refine ⟨?_, ?_⟩ <;>
          · simp only [stepE, filters.stop, methods.stop]
            split_ifs <;> simp [hp]
      | opReset =>
        refine ⟨?_, ?_⟩ <;>
          · simp only [stepE, methods.reset, filters.stop, methods.stop]
            split_ifs <;> simp [hp]
      | opTick => simp [stepE, hp]
      | opUpdate o => simp [stepE, methods.update, hp]
    have hrest := ih (stepE st op).1 hstep.1 hops2
    constructor
    · show (runOps st (op :: ops)).1.pending = 0
      simp only [runOps]
      exact hrest.1
    · show Event.evIncrement ∉ (runOps st (op :: ops)).2
      simp only [runOps, List.mem_append]
      rintro (h | h)
      · exact hstep.2 h
      · exact hrest.2 h

/-- C4, confirmed.  Stopping a Running timer (timeout flag set, one live
scheduled callback) cancels the live callback, clears the flag, leaves
the count alone, fires onStop when set and returns true; afterwards no
sequence of operations avoiding start can ever produce an onIncrement
event.  Stopping a timer whose timeout flag is false (Idle or Completed)
changes nothing and returns false. -/
theorem C4_stop (st : TimerState) :
    (st.settings.timeout = true → st.pending = 1 →
      (filters.stop st).1.settings.timeout = false ∧
      (filters.stop st).1.pending = 0 ∧
      (filters.stop st).1.settings.count = st.settings.count ∧
      (filters.stop st).2.2 = some true ∧
      (st.settings.onStop = true → Event.evStop ∈ (filters.stop st).2.1) ∧
      (∀ ops : List Op, Op.opStart ∉ ops →
        Event.evIncrement ∉ (runOps (filters.stop st).1 ops).2)) ∧
    (st.settings.timeout = false → filters.stop st = (st, [], some false)) := by
  constructor
  · intro ht hp
    have ht' : ¬st.settings.timeout = false := by simp [ht]
    refine ⟨?_, ?_, ?_, ?_, ?_, ?_⟩
    · simp [filters.stop, methods.stop, ht']
    · simp [filters.stop, methods.stop, ht', hp]
    · simp [filters.stop, methods.stop, ht']
    · simp [filters.stop, ht']
    · intro hs; simp [filters.stop, methods.stop, ht', hs]
    · intro ops hops
      have hzero : (filters.stop st).1.pending = 0 := by
        simp [filters.stop, methods.stop, ht', hp]
      exact (pending_zero_no_increment ops (filters.stop st).1 hzero hops).2
  · intro ht
    simp [filters.stop, ht]

/-- C4, witness: stopping the running timer, then ticking and stopping
again, yields no onIncrement; stopping the idle timer is the identity. -/
theorem C4_stop_witness :
    ((runningNearEnd.settings.timeout = true → runningNearEnd.pending = 1 →
      (filters.stop runningNearEnd).1.settings.timeout = false ∧
      (filters.stop runningNearEnd).1.pending = 0 ∧
      (filters.stop runningNearEnd).1.settings.count =
        runningNearEnd.settings.count ∧
      (filters.stop runningNearEnd).2.2 = some true ∧
      (runningNearEnd.settings.onStop = true →
        Event.evStop ∈ (filters.stop runningNearEnd).2.1) ∧
      (∀ ops : List Op, Op.opStart ∉ ops →
        Event.evIncrement ∉ (runOps (filters.stop runningNearEnd).1 ops).2)) ∧
    (runningNearEnd.settings.timeout = false →
      filters.stop runningNearEnd = (runningNearEnd, [], some false))) ∧
    Event.evIncrement ∉
      (runOps (filters.stop runningNearEnd).1 [Op.opTick, Op.opStop]).2 := by
  have h := C4_stop runningNearEnd
  refine ⟨h, ?_⟩
  refine (h.1 rfl rfl).2.2.2.2.2 [Op.opTick, Op.opStop] ?_
  decide

/-- C5, confirmed.  The percent getter is a pure function of the stored
settings (the source reads the data attached to the element and performs
no writes): on an element never passed through init it returns the
sentinel false, and on settings s it returns
round (s.count / s.duration * 1000) / 1000 with the JS rounding rule. -/
theorem C5_percent (s : Settings) :
    get.percent none = GetPercentResult.jsFalse ∧
    get.percent (some s) =
      GetPercentResult.val (((⌊s.count / s.duration * 1000 + 1/2⌋ : ℤ) : ℚ) / 1000) :=
  ⟨rfl, rfl⟩

/-- C5, witness at the sample settings. -/
theorem C5_percent_witness :
    get.percent none = GetPercentResult.jsFalse ∧
    get.percent (some sampleSettings) =
      GetPercentResult.val
        (((⌊sampleSettings.count / sampleSettings.duration * 1000 + 1/2⌋ : ℤ) : ℚ)
          / 1000) :=
  C5_percent sampleSettings

/-- Helper: bounds of the rounded percentage of a settings object with
positive duration and nonnegative count.  Note neither bound is strict
at 1: the percent can reach 1 just below the duration (rounding up) and
can exceed 1 at or past it. -/
theorem percentQ_bounds (s : Settings) (hd : 0 < s.duration) (hc : 0 ≤ s.count) :
    0 ≤ percentQ s ∧ (s.count < s.duration → percentQ s ≤ 1) ∧
      (s.duration ≤ s.count → 1 ≤ percentQ s) := by
  have hratio : 0 ≤ s.count / s.duration := div_nonneg hc hd.le
  refine ⟨?_, ?_, ?_⟩
  · unfold percentQ jsRound
    apply div_nonneg _ (by norm_num)
    have h0 : (0 : ℤ) ≤ ⌊s.count / s.duration * 1000 + 1/2⌋ := by
      apply Int.floor_nonneg.mpr
      nlinarith
    exact_mod_cast h0
  · intro hlt
    have h1 : s.count / s.duration < 1 := (div_lt_one hd).mpr hlt
    have h2 : s.count / s.duration * 1000 + 1/2 < ((1001 : ℤ) : ℚ) := by
      push_cast
      nlinarith
    have h3 : ⌊s.count / s.duration * 1000 + 1/2⌋ ≤ 1000 := by
      have := Int.floor_lt.mpr h2
      omega
    unfold percentQ jsRound
    rw [div_le_one (by norm_num : (0:ℚ) < 1000)]
    exact_mod_cast h3
  · intro hge
    have h1 : 1 ≤ s.count / s.duration := (one_le_div hd).mpr hge
    have h3 : (1000 : ℤ) ≤ ⌊s.count / s.duration * 1000 + 1/2⌋ := by
      apply Int.le_floor.mpr
      push_cast
      nlinarith
    unfold percentQ jsRound
    rw [le_div_iff₀ (by norm_num : (0:ℚ) < 1000), one_mul]
    exact_mod_cast h3

/-- Helper: along any update-free sequence of operations from a state
with positive increment and duration, the increment and duration are
fixed and the count stays nonnegative. -/
theorem runOps_preserves (ops : List Op) :
    ∀ st : TimerState, 0 < st.settings.increment → 0 < st.settings.duration →
      0 ≤ st.settings.count → (∀ o : Options, Op.opUpdate o ∉ ops) →
      (runOps st ops).1.settings.increment = st.settings.increment ∧
      (runOps st ops).1.settings.duration = st.settings.duration ∧
      0 ≤ (runOps st ops).1.settings.count := by
  induction ops with
  | nil => intro st _ _ hc _; exact ⟨rfl, rfl, hc⟩
  | cons op ops ih =>
    intro st hinc hdur hc hops
    have hops2 : ∀ o : Options, Op.opUpdate o ∉ ops :=
      fun o h => hops o (List.mem_cons_of_mem op h)
    have hstep : (stepE st op).1.settings.increment = st.settings.increment ∧
        (stepE st op).1.settings.duration = st.settings.duration ∧
        0 ≤ (stepE st op).1.settings.count := by
      cases op with
      | opStart =>
        have hnd : ¬st.settings.duration ≤ 0 := not_le.mpr hdur
        refine ⟨?_, ?_, ?_⟩ <;>
          · simp only [stepE, filters.start, methods.start, _private.time]
            split_ifs <;> simp_all
      | opStop =>
        refine ⟨?_, ?_, ?_⟩ <;>
          · simp only [stepE, filters.stop, methods.stop]
            split_ifs <;> simp [hc]
      | opReset =>
        refine ⟨?_, ?_, ?_⟩ <;>
          · simp only [stepE, methods.reset, filters.stop, methods.stop]
            first
            | (split_ifs <;> simp [hc])
            | norm_num
      | opTick =>
        refine ⟨?_, ?_, ?_⟩ <;>
          · simp only [stepE, tick, _private.count, _private.complete,
              filters.stop, methods.stop, _private.time]
            split_ifs <;> simp [hc] <;> linarith
      | opUpdate o => exact absurd (List.mem_cons_self _ _) (hops o)
    have hrest := ih (stepE st op).1 (hstep.1 ▸ hinc) (hstep.2.1 ▸ hdur)
      hstep.2.2 hops2
    have hshape : (runOps st (op :: ops)).1 = (runOps (stepE st op).1 ops).1 := rfl
    rw [hshape]
    exact ⟨hrest.1.trans hstep.1, hrest.2.1.trans hstep.2.1, hrest.2.2⟩

/-- Options of the C6 counterexample: increment 700, duration 1000. -/
def c6Opts : Options :=
  { increment := some 700, duration := some 1000, onComplete := some true }

/-- The state reached from init with increment 700, duration 1000 by
start and two ticks: the second tick completes at count 1400. -/
def c6State : TimerState :=
  (runOps (methods.init c6Opts).1 [Op.opStart, Op.opTick, Op.opTick]).1

/-- C6, counterexample.  The claim states that the percent of every
reachable timer lies in the interval from 0 to 1 and equals 1 exactly at
Completed.  The reachable completed state with increment 700, duration
1000 and count 1400 has percent 1.4, outside the interval and not 1. -/
theorem C6_counterexample :
    c6State.settings.duration ≤ c6State.settings.count ∧
    percentQ c6State.settings = 7/5 ∧ ¬percentQ c6State.settings ≤ 1 := by
  have hst : c6State =
      { settings :=
          { increment := 700
            duration := 1000
            autostart := false
            onComplete := true
            onIncrement := false
            onStart := false
            onStop := false
            onReset := false
            timeout := false
            count := 1400 }
        pending := 0 } := by
    norm_num [c6State, c6Opts, methods.init, initSettings, extendOpt,
      _private.settings, runOps, stepE, filters.start, methods.start,
      _private.time, tick, _private.count, _private.complete, filters.stop,
      methods.stop]
  rw [hst]
  norm_num [percentQ, jsRound]

/-- C6, amended.  For every timer inited with positive increment and
positive duration and driven by any update-free sequence of operations
and ticks: the percent is at least 0; it is at most 1 while the count is
below the duration; and it is at least 1 once the count reaches the
duration.  The original two-sided claim fails: percent can exceed 1 at
completion (counterexample: percent 1.4) and can round up to 1 just
before completion. -/
theorem C6_percent_bounds (o : Options) (ops : List Op)
    (hinc : 0 < o.increment.getD 100) (hdur : 0 < o.duration.getD 1000)
    (hops : ∀ o2 : Options, Op.opUpdate o2 ∉ ops) :
    0 ≤ percentQ (runOps (methods.init o).1 ops).1.settings ∧
    ((runOps (methods.init o).1 ops).1.settings.count <
        (runOps (methods.init o).1 ops).1.settings.duration →
      percentQ (runOps (methods.init o).1 ops).1.settings ≤ 1) ∧
    ((runOps (methods.init o).1 ops).1.settings.duration ≤
        (runOps (methods.init o).1 ops).1.settings.count →
      1 ≤ percentQ (runOps (methods.init o).1 ops).1.settings) := by
  have hinit : (methods.init o).1.settings.increment = o.increment.getD 100 ∧
      (methods.init o).1.settings.duration = o.duration.getD 1000 ∧
      (methods.init o).1.settings.count = 0 := by
    refine ⟨?_, ?_, ?_⟩ <;>
      · simp only [methods.init, initSettings, extendOpt, _private.settings,
          methods.start, _private.time]
        split_ifs <;> simp
  have h := runOps_preserves ops (methods.init o).1 (hinit.1.symm ▸ hinc)
    (hinit.2.1.symm ▸ hdur) hinit.2.2.symm.le hops
  exact percentQ_bounds _ (h.2.1.trans hinit.2.1 ▸ hdur) h.2.2

/-- C6, witness for the amended theorem: init with increment 700,
duration 1000, then start and one tick. -/
theorem C6_percent_bounds_witness :
    0 ≤ percentQ (runOps (methods.init c6Opts).1 [Op.opStart, Op.opTick]).1.settings ∧
    ((runOps (methods.init c6Opts).1 [Op.opStart, Op.opTick]).1.settings.count <
        (runOps (methods.init c6Opts).1 [Op.opStart, Op.opTick]).1.settings.duration →
      percentQ (runOps (methods.init c6Opts).1 [Op.opStart, Op.opTick]).1.settings ≤ 1) ∧
    ((runOps (methods.init c6Opts).1 [Op.opStart, Op.opTick]).1.settings.duration ≤
        (runOps (methods.init c6Opts).1 [Op.opStart, Op.opTick]).1.settings.count →
      1 ≤ percentQ (runOps (methods.init c6Opts).1 [Op.opStart, Op.opTick]).1.settings) :=
  C6_percent_bounds c6Opts [Op.opStart, Op.opTick]
    (by norm_num [c6Opts]) (by norm_num [c6Opts])
    (by intro o2; simp)

/-- Helper: ticks on a state with no live scheduled callback do
nothing. -/
theorem ticks_noop (k : ℕ) :
    ∀ st : TimerState, st.pending = 0 →
      runOps st (List.replicate k Op.opTick) = (st, []) := by
  induction k with
  | zero => intro st _; rfl
  | succ k ih =>
    intro st hp
    have h1 : stepE st Op.opTick = (st, []) := by simp [stepE, hp]
    show runOps st (Op.opTick :: List.replicate k Op.opTick) = (st, [])
    simp only [runOps, h1, ih st hp, List.nil_append]

/-- Helper: splitting a run of operations at a list append. -/
theorem runOps_append (l1 l2 : List Op) :
    ∀ st : TimerState,
      runOps st (l1 ++ l2) =
        ((runOps (runOps st l1).1 l2).1,
         (runOps st l1).2 ++ (runOps (runOps st l1).1 l2).2) := by
  induction l1 with
  | nil => intro st; simp [runOps]
  | cons op l1 ih =>
    intro st
    simp only [List.cons_append, runOps, List.append_eq, ih (stepE st op).1,
      List.append_assoc]

/-- Helper: a running timer with positive increment whose duration is
within n + 1 increments of the count completes in exactly n + 1 ticks:
no live callback remains, the count has reached the duration, and the
trace carries exactly one onComplete event. -/
theorem ticks_complete_aux (n : ℕ) :
    ∀ st : TimerState, 0 < st.settings.increment → st.pending = 1 →
      st.settings.timeout = true → st.settings.onComplete = true →
      st.settings.duration ≤ st.settings.count +
        ((n : ℚ) + 1) * st.settings.increment →
      (runOps st (List.replicate (n + 1) Op.opTick)).1.pending = 0 ∧
      (runOps st (List.replicate (n + 1) Op.opTick)).1.settings.duration ≤
        (runOps st (List.replicate (n + 1) Op.opTick)).1.settings.count ∧
      ((runOps st (List.replicate (n + 1) Op.opTick)).2.count Event.evComplete) = 1 := by
  induction n with
  | zero =>
    intro st hinc hp ht hcb hd
    have hd' : st.settings.duration ≤ st.settings.count + st.settings.increment := by
      push_cast at hd
      linarith
    have h1 : stepE st Op.opTick = tick st := by simp [stepE, hp]
    have h2 := tick_complete_eq st hp ht hd'
    have hshape : runOps st (List.replicate 1 Op.opTick) =
        ((tick st).1, (tick st).2 ++ []) := by
      show runOps st (Op.opTick :: []) = _
      simp only [runOps, h1]
    rw [hshape, h2]
    refine ⟨rfl, hd', ?_⟩
    simp only [List.append_nil, List.count_append, hcb]
    have hi : ((if st.settings.onIncrement then [Event.evIncrement]
        else []).count Event.evComplete) = 0 := by split <;> simp
    have hs : ((if st.settings.onStop then [Event.evStop]
        else []).count Event.evComplete) = 0 := by split <;> simp
    simp [hi, hs]
  | succ n ih =>
    intro st hinc hp ht hcb hd
    have h1 : stepE st Op.opTick = tick st := by simp [stepE, hp]
    have hshape : runOps st (List.replicate (n + 2) Op.opTick) =
        ((runOps (tick st).1 (List.replicate (n + 1) Op.opTick)).1,
         (tick st).2 ++
           (runOps (tick st).1 (List.replicate (n + 1) Op.opTick)).2) := by
      show runOps st (Op.opTick :: List.replicate (n + 1) Op.opTick) = _
      simp only [runOps, h1]
    by_cases hdone : st.settings.duration ≤ st.settings.count + st.settings.increment
    · have h2 := tick_complete_eq st hp ht hdone
      have hzero : (tick st).1.pending = 0 := by rw [h2]
      have hnoop := ticks_noop (n + 1) (tick st).1 hzero
      rw [hshape, hnoop]
      refine ⟨hzero, ?_, ?_⟩
      · rw [h2]; exact hdone
      · rw [List.append_nil, h2]
        simp only [List.count_append, hcb]
        have hi : ((if st.settings.onIncrement then [Event.evIncrement]
            else []).count Event.evComplete) = 0 := by split <;> simp
        have hs : ((if st.settings.onStop then [Event.evStop]
            else []).count Event.evComplete) = 0 := by split <;> simp
        simp [hi, hs]
    · push_neg at hdone
      have h2 := tick_continue_eq st hp ht hdone
      have hih := ih (tick st).1 (by rw [h2]; exact hinc) (by rw [h2])
        (by rw [h2]; exact ht) (by rw [h2]; exact hcb)
        (by rw [h2]; push_cast; push_cast at hd; ring_nf; ring_nf at hd; linarith)
      rw [hshape]
      refine ⟨hih.1, hih.2.1, ?_⟩
      rw [List.count_append]
      have htr : ((tick st).2.count Event.evComplete) = 0 := by
        rw [h2]
        split <;> simp
      rw [htr, hih.2.2]

/-- C8, confirmed.  For every positive increment, every duration and
every starting count, a running timer completes after finitely many
ticks: there is a tick count n after which no callback is live, the
count has reached the duration, the trace carries onComplete exactly
once, and any longer run of ticks still carries it exactly once (the
further ticks have nothing to fire). -/
theorem C8_termination (st : TimerState) (hinc : 0 < st.settings.increment)
    (hp : st.pending = 1) (ht : st.settings.timeout = true)
    (hcb : st.settings.onComplete = true) :
    ∃ n : ℕ, 0 < n ∧
      (runOps st (List.replicate n Op.opTick)).1.pending = 0 ∧
      (runOps st (List.replicate n Op.opTick)).1.settings.duration ≤
        (runOps st (List.replicate n Op.opTick)).1.settings.count ∧
      ((runOps st (List.replicate n Op.opTick)).2.count Event.evComplete) = 1 ∧
      (∀ m : ℕ, n ≤ m →
        ((runOps st (List.replicate m Op.opTick)).2.count Event.evComplete) = 1) := by
  set N : ℕ :=
    ⌈(st.settings.duration - st.settings.count) / st.settings.increment⌉₊ with hN
  have h1 : (st.settings.duration - st.settings.count) / st.settings.increment ≤
      (N : ℚ) := Nat.le_ceil _
  have h2 : st.settings.duration - st.settings.count ≤
      (N : ℚ) * st.settings.increment := by
    rwa [div_le_iff₀ hinc] at h1
  have hle : st.settings.duration ≤ st.settings.count +
      ((N : ℚ) + 1) * st.settings.increment := by nlinarith
  have haux := ticks_complete_aux N st hinc hp ht hcb hle
  refine ⟨N + 1, Nat.succ_pos N, haux.1, haux.2.1, haux.2.2, ?_⟩
  intro m hm
  have hsplit : List.replicate m Op.opTick =
      List.replicate (N + 1) Op.opTick ++ List.replicate (m - (N + 1)) Op.opTick := by
    rw [← List.replicate_add]
    congr 1
    omega
  rw [hsplit, runOps_append, ticks_noop _ _ haux.1]
  simp [haux.2.2]

/-- C8, witness: the running timer with increment 100, duration 1000,
count 950. -/
theorem C8_termination_witness :
    ∃ n : ℕ, 0 < n ∧
      (runOps runningNearEnd (List.replicate n Op.opTick)).1.pending = 0 ∧
      (runOps runningNearEnd (List.replicate n Op.opTick)).1.settings.duration ≤
        (runOps runningNearEnd (List.replicate n Op.opTick)).1.settings.count ∧
      ((runOps runningNearEnd
        (List.replicate n Op.opTick)).2.count Event.evComplete) = 1 ∧
      (∀ m : ℕ, n ≤ m →
        ((runOps runningNearEnd
          (List.replicate m Op.opTick)).2.count Event.evComplete) = 1) :=
  C8_termination runningNearEnd
    (by norm_num [runningNearEnd, sampleSettings, _private.settings]) rfl rfl rfl

/-- C7, counterexample.  The claim states the guard outcome is signaled
via a boolean success return that is true when at least one selected
element passed.  In v0.1.9 filters.start falls off the end after calling
methods.start, so at an idle timer whose guard passes it returns
undefined, not true. -/
theorem C7_counterexample :
    idleState.settings.timeout = false ∧
    idleState.settings.count < idleState.settings.duration ∧
    (filters.start idleState).2.2 = none ∧
    (filters.start idleState).2.2 ≠ some true := by
  have h : (filters.start idleState).2.2 = none := by
    norm_num [idleState, sampleSettings, _private.settings, filters.start,
      methods.start, _private.time]
  refine ⟨?_, ?_, h, ?_⟩
  · norm_num [idleState, sampleSettings, _private.settings]
  · norm_num [idleState, sampleSettings, _private.settings]
  · rw [h]
    simp

/-- C7, amended.  Guard rejections raise no error and report false: when
no element passes, start and stop return false in both revisions (and the
rejected call leaves the state unchanged).  On success, stop returns true
in both revisions and start returns true in v0.1.6, but the v0.1.9 start
filter returns undefined (no boolean) on success. -/
theorem C7_guard_returns (st : TimerState) (hd : 0 < st.settings.duration) :
    ((st.settings.timeout = true ∨ st.settings.duration ≤ st.settings.count) →
      filters.start st = (st, [], some false) ∧
      filters.start_v016 st = (st, [], some false)) ∧
    (st.settings.timeout = false → st.settings.count < st.settings.duration →
      (filters.start st).2.2 = none ∧
      (filters.start_v016 st).2.2 = some true) ∧
    (st.settings.timeout = true → (filters.stop st).2.2 = some true) ∧
    (st.settings.timeout = false → filters.stop st = (st, [], some false)) := by
  have hnd : ¬st.settings.duration ≤ 0 := not_le.mpr hd
  refine ⟨?_, ?_, ?_, ?_⟩
  · rintro (h | h)
    · constructor <;> simp [filters.start, filters.start_v016, hnd, h]
    · constructor <;>
        simp [filters.start, filters.start_v016, hnd, not_lt.mpr h]
  · intro ht hc
    constructor <;>
      simp [filters.start, filters.start_v016, hnd, ht, hc, methods.start,
        _private.time]
  · intro ht
    simp [filters.stop, ht]
  · intro ht
    simp [filters.stop, ht]

/-- C7, witness: the idle timer passes the start guard (undefined from
v0.1.9, true from v0.1.6) and fails the stop guard (false). -/
theorem C7_guard_returns_witness :
    ((idleState.settings.timeout = true ∨
        idleState.settings.duration ≤ idleState.settings.count) →
      filters.start idleState = (idleState, [], some false) ∧
      filters.start_v016 idleState = (idleState, [], some false)) ∧
    (idleState.settings.timeout = false →
      idleState.settings.count < idleState.settings.duration →
      (filters.start idleState).2.2 = none ∧
      (filters.start_v016 idleState).2.2 = some true) ∧
    (idleState.settings.timeout = true →
      (filters.stop idleState).2.2 = some true) ∧
    (idleState.settings.timeout = false →
      filters.stop idleState = (idleState, [], some false)) :=
  C7_guard_returns idleState
    (by norm_num [idleState, sampleSettings, _private.settings])

/-- Options of the C9 counterexample: a caller-supplied object carrying
the private key count. -/
def c9Opts : Options := { count := some 5 }

/-- C9, counterexample.  The claim quantifies over every options object,
but update merges with plain extend: an options object carrying the key
count overwrites the elapsed count (0 becomes 5 here); likewise a
timeout key would overwrite the running flag. -/
theorem C9_counterexample :
    idleState.settings.count = 0 ∧
    (methods.update c9Opts idleState).settings.count = 5 ∧
    (methods.update c9Opts idleState).settings.count ≠ idleState.settings.count := by
  norm_num [idleState, sampleSettings, _private.settings, methods.update,
    extendOpt, c9Opts]

/-- C9, amended.  For every options object that does not carry the
private keys count and timeout, update merges each supplied option value
into the live settings and leaves the count, the timeout flag and the
live scheduled callbacks unchanged. -/
theorem C9_update_frame (o : Options) (st : TimerState)
    (hc : o.count = none) (ht : o.timeout = none) :
    (methods.update o st).settings.count = st.settings.count ∧
    (methods.update o st).settings.timeout = st.settings.timeout ∧
    (methods.update o st).pending = st.pending ∧
    (methods.update o st).settings.increment =
      o.increment.getD st.settings.increment ∧
    (methods.update o st).settings.duration =
      o.duration.getD st.settings.duration ∧
    (methods.update o st).settings.autostart =
      o.autostart.getD st.settings.autostart ∧
    (methods.update o st).settings.onComplete =
      o.onComplete.getD st.settings.onComplete ∧
    (methods.update o st).settings.onIncrement =
      o.onIncrement.getD st.settings.onIncrement ∧
    (methods.update o st).settings.onStart =
      o.onStart.getD st.settings.onStart ∧
    (methods.update o st).settings.onStop =
      o.onStop.getD st.settings.onStop ∧
    (methods.update o st).settings.onReset =
      o.onReset.getD st.settings.onReset := by
  simp [methods.update, extendOpt, hc, ht]

/-- C9, witness: updating the duration of the idle timer. -/
theorem C9_update_frame_witness :
    (methods.update { duration := some 5 } idleState).settings.count =
      idleState.settings.count ∧
    (methods.update { duration := some 5 } idleState).settings.timeout =
      idleState.settings.timeout ∧
    (methods.update { duration := some 5 } idleState).pending =
      idleState.pending ∧
    (methods.update { duration := some 5 } idleState).settings.increment =
      (({ duration := some 5 } : Options)).increment.getD
        idleState.settings.increment ∧
    (methods.update { duration := some 5 } idleState).settings.duration =
      (({ duration := some 5 } : Options)).duration.getD
        idleState.settings.duration ∧
    (methods.update { duration := some 5 } idleState).settings.autostart =
      (({ duration := some 5 } : Options)).autostart.getD
        idleState.settings.autostart ∧
    (methods.update { duration := some 5 } idleState).settings.onComplete =
      (({ duration := some 5 } : Options)).onComplete.getD
        idleState.settings.onComplete ∧
    (methods.update { duration := some 5 } idleState).settings.onIncrement =
      (({ duration := some 5 } : Options)).onIncrement.getD
        idleState.settings.onIncrement ∧
    (methods.update { duration := some 5 } idleState).settings.onStart =
      (({ duration := some 5 } : Options)).onStart.getD
        idleState.settings.onStart ∧
    (methods.update { duration := some 5 } idleState).settings.onStop =
      (({ duration := some 5 } : Options)).onStop.getD
        idleState.settings.onStop ∧
    (methods.update { duration := some 5 } idleState).settings.onReset =
      (({ duration := some 5 } : Options)).onReset.getD
        idleState.settings.onReset :=
  C9_update_frame { duration := some 5 } idleState rfl rfl

/-- Options of the C10 counterexample: autostart requested at init. -/
def c10Opts : Options := { autostart := some true }

/-- C10, counterexample.  The claim states init always produces a state
with no pending timeout.  With autostart true, init calls methods.start
directly, so the state produced by init has one live scheduled callback
and the timeout flag set. -/
theorem C10_counterexample :
    (methods.init c10Opts).1.pending = 1 ∧
    (methods.init c10Opts).1.pending ≠ 0 ∧
    (methods.init c10Opts).1.settings.timeout = true := by
  norm_num [methods.init, c10Opts, initSettings, extendOpt, _private.settings,
    methods.start, _private.time]

/-- C10, amended.  For every caller-supplied options object, init
produces a state whose count is 0 (the private fields are merged after
the options, so count and timeout keys in the options are overridden);
the produced state has no live callback and a cleared timeout flag
whenever autostart is not set to true, while with autostart true init
itself starts the timer, leaving exactly one live callback (count still
0). -/
theorem C10_init_merge (o : Options) :
    (methods.init o).1.settings.count = 0 ∧
    (o.autostart.getD false = false →
      (methods.init o).1.pending = 0 ∧
      (methods.init o).1.settings.timeout = false) ∧
    (o.autostart.getD false = true →
      (methods.init o).1.pending = 1 ∧
      (methods.init o).1.settings.timeout = true) := by
  refine ⟨?_, ?_, ?_⟩
  · simp only [methods.init, initSettings, extendOpt, _private.settings,
      methods.start, _private.time]
    split_ifs <;> simp
  · intro ha
    simp [methods.init, initSettings, extendOpt, _private.settings, ha]
  · intro ha
    simp [methods.init, initSettings, extendOpt, _private.settings,
      methods.start, _private.time, ha]

/-- C10, witness: init with autostart true has count 0 and one live
scheduled callback. -/
theorem C10_init_merge_witness :
    (methods.init c10Opts).1.settings.count = 0 ∧
    (methods.init c10Opts).1.pending = 1 ∧
    (methods.init c10Opts).1.settings.timeout = true :=
  ⟨(C10_init_merge c10Opts).1,
   ((C10_init_merge c10Opts).2.2 (by norm_num [c10Opts])).1,
   ((C10_init_merge c10Opts).2.2 (by norm_num [c10Opts])).2⟩

end SimpleTimer
